import Mathlib

/-!
Shallow embedding of the `mytracer` repository: two near-duplicate C++
ray tracers, `output-raw.cpp` (richer variant, namespace `Raw`) and an
unnamed simpler variant (namespace `Simple`).  Floating point arithmetic
is modelled over the real numbers.
-/

namespace MyTracer

/-- 3D vector, mirroring `class Vector` (identical in both variants). -/
structure Vector where
  x : ℝ
  y : ℝ
  z : ℝ

namespace Vector

/-- `Vector::length`: `sqrt(x*x + y*y + z*z)`. -/
noncomputable def length (v : Vector) : ℝ :=
  Real.sqrt (v.x * v.x + v.y * v.y + v.z * v.z)

/-- `Vector::dot`. -/
def dot (v w : Vector) : ℝ :=
  (v.x * w.x) + (v.y * w.y) + (v.z * w.z)

/-- `Vector::operator-`. -/
def sub (v w : Vector) : Vector :=
  ⟨v.x - w.x, v.y - w.y, v.z - w.z⟩

/-- `Vector::operator+`. -/
def add (v w : Vector) : Vector :=
  ⟨v.x + w.x, v.y + w.y, v.z + w.z⟩

/-- `Vector::operator*` (scaling by a scalar). -/
def smul (v : Vector) (scale : ℝ) : Vector :=
  ⟨v.x * scale, v.y * scale, v.z * scale⟩

instance : Sub Vector := ⟨sub⟩

instance : Add Vector := ⟨add⟩

instance : HMul Vector ℝ Vector := ⟨smul⟩

/-- `Vector::normalized`: `(*this) * (1.0f / length())`. -/
noncomputable def normalized (v : Vector) : Vector :=
  v * ((1 : ℝ) / v.length)

end Vector

namespace Raw

/-- `class Color` of `output-raw.cpp`: a defined flag plus three channels. -/
structure Color where
  defined : Bool
  red : ℝ
  green : ℝ
  blue : ℝ

namespace Color

/-- The default constructor `Color()`: undefined, all channels zero. -/
def undef : Color := ⟨false, 0, 0, 0⟩

/-- The three-argument constructor `Color(r, g, b)` of `output-raw.cpp`:
sets `defined` and clamps each channel to `[0, 1]`. -/
noncomputable def rgb (r g b : ℝ) : Color :=
  ⟨true, max (min r 1) 0, max (min g 1) 0, max (min b 1) 0⟩

/-- `Color::operator*` (scaling): goes through the clamping constructor. -/
noncomputable def smul (c : Color) (scale : ℝ) : Color :=
  rgb (c.red * scale) (c.green * scale) (c.blue * scale)

/-- `Color::operator+`: channel-wise sum through the clamping constructor. -/
noncomputable def add (c d : Color) : Color :=
  rgb (c.red + d.red) (c.green + d.green) (c.blue + d.blue)

noncomputable instance : Add Color := ⟨add⟩

noncomputable instance : HMul Color ℝ Color := ⟨smul⟩

/-- `Color::isDefined`. -/
def isDefined (c : Color) : Bool := c.defined

/-- `Color::redByte`: `uint8_t(red * 0xFF)` (truncation of a value in `[0, 255]`). -/
noncomputable def redByte (c : Color) : ℕ := (⌊c.red * 255⌋).toNat

/-- `Color::greenByte`. -/
noncomputable def greenByte (c : Color) : ℕ := (⌊c.green * 255⌋).toNat

/-- `Color::blueByte`. -/
noncomputable def blueByte (c : Color) : ℕ := (⌊c.blue * 255⌋).toNat

end Color

/-- `struct Material`. -/
structure Material where
  specValue : ℝ
  specPower : ℝ

/-- `typedef std::pair<Vector, Color> Sphere`. -/
abbrev Sphere : Type := Vector × Color

/-- `typedef std::pair<Sphere, Vector> IntersectionPoint`. -/
abbrev IntersectionPoint : Type := Sphere × Vector

/-- `spherePoint(rayOrigin, rayDirection, t) = rayOrigin + rayDirection * t`. -/
noncomputable def spherePoint (rayOrigin rayDirection : Vector) (t : ℝ) : Vector :=
  rayOrigin + (rayDirection * t)

/-- `raySphereIntersections` of `output-raw.cpp`: the list of parametric
roots of the ray against one sphere (radius fixed at `0.5`). -/
noncomputable def raySphereIntersections (sphere : Sphere) (rayOrigin rayDirection : Vector) :
    List ℝ :=
  let sphereCenter := sphere.1
  let sphereRadius : ℝ := 0.5
  let l := sphereCenter - rayOrigin
  let s := l.dot rayDirection
  let lSquared := l.dot l
  let sphereRadiusSquared := sphereRadius * sphereRadius
  if s < 0 ∧ lSquared > sphereRadiusSquared then []
  else
    let mSquared := lSquared - (s * s)
    if mSquared > sphereRadiusSquared then []
    else
      let q := Real.sqrt (sphereRadiusSquared - mSquared)
      [s - q, s + q]

/-- One update of the scan state of `closestSphereIntersection`: candidate
`c = (t, (sphere, worldPoint))` replaces the state when
`t > 0.00001f && (!intersectionFound || t < tMin)`. -/
noncomputable def updateClosest (st : Option (ℝ × IntersectionPoint))
    (c : ℝ × IntersectionPoint) : Option (ℝ × IntersectionPoint) :=
  match st with
  | none => if c.1 > 1e-5 then some c else none
  | some p => if c.1 > 1e-5 ∧ c.1 < p.1 then some c else some p

/-- `closestSphereIntersection`: linear scan over every sphere and every
root, keeping the minimum `t` above the epsilon; `none` models the
`first = false` return. -/
noncomputable def closestSphereIntersection (spheres : List Sphere)
    (rayOrigin rayDirection : Vector) : Option IntersectionPoint :=
  (spheres.foldl
    (fun st sphere =>
      (raySphereIntersections sphere rayOrigin rayDirection).foldl
        (fun st t => updateClosest st (t, (sphere, spherePoint rayOrigin rayDirection t))) st)
    none).map Prod.snd

/-- All candidate `(t, (sphere, worldPoint))` triples scanned by
`closestSphereIntersection`, in scan order. -/
noncomputable def candidates (spheres : List Sphere) (rayOrigin rayDirection : Vector) :
    List (ℝ × IntersectionPoint) :=
  spheres.flatMap fun sphere =>
    (raySphereIntersections sphere rayOrigin rayDirection).map fun t =>
      (t, (sphere, spherePoint rayOrigin rayDirection t))

/-- `calculateLambert` of `output-raw.cpp`. -/
noncomputable def calculateLambert (sphereCenter intersection lightPosition : Vector) : ℝ :=
  let lightDirection := (lightPosition - intersection).normalized
  let sphereNormal := (intersection - sphereCenter).normalized
  max 0 (lightDirection.dot sphereNormal)

/-- `calculatePhong` of `output-raw.cpp` (the `blinnDirection` formula is
preserved exactly; `powf` is modelled by the real power function). -/
noncomputable def calculatePhong (sphereCenter intersection lightPosition rayOrigin : Vector)
    (sphereMaterial : Material) : ℝ :=
  let sphereNormal := (intersection - sphereCenter).normalized
  let lightDirection := (lightPosition - intersection).normalized
  let viewDirection := (intersection - rayOrigin).normalized
  let blinnDirection := (lightDirection - viewDirection).normalized
  let blinnTerm := max (blinnDirection.dot sphereNormal) 0
  sphereMaterial.specValue * blinnTerm ^ sphereMaterial.specPower

/-- `isShadowed` of `output-raw.cpp`: the shadow ray from `point` toward the
light hits some sphere of the list. -/
noncomputable def isShadowed (point : Vector) (spheres : List Sphere)
    (lightPosition : Vector) : Bool :=
  let lightDirection := (lightPosition - point).normalized
  (closestSphereIntersection spheres point lightDirection).isSome

/-- `contributionFromLight` of `output-raw.cpp`. -/
noncomputable def contributionFromLight (intersectionPoint : IntersectionPoint)
    (intersectionSphere : Sphere) (spheres : List Sphere)
    (lightPosition rayOrigin : Vector) (sphereMaterial : Material) : Color :=
  if isShadowed intersectionPoint.2 spheres lightPosition then
    Color.rgb 0 0 0
  else
    let phongTerm := calculatePhong intersectionSphere.1 intersectionPoint.2 lightPosition
      rayOrigin sphereMaterial
    let lambertTerm := calculateLambert intersectionSphere.1 intersectionPoint.2 lightPosition
    (intersectionSphere.2 * lambertTerm) + (intersectionSphere.2 * phongTerm)

/-- `ambientLight`: `albedo * 0.1`. -/
noncomputable def ambientLight (intersectionSphere : Sphere) : Color :=
  intersectionSphere.2 * (0.1 : ℝ)

/-- The per-pixel mutable state of the `while(currentDepth < 10)` loop in
`renderImage` of `output-raw.cpp`. -/
structure TraceState where
  depth : ℕ
  pixelColor : Color
  reflectionFactor : ℝ
  rayOrigin : Vector
  rayDirection : Vector

/-- One iteration of the loop body of `renderImage`: on a hit, add ambient
(at depth 0 only) and every light's contribution scaled by the current
reflection factor, decay the factor, reflect the ray and increment the
depth; on a miss, set the depth to 10. -/
noncomputable def step (spheres : List Sphere) (lights : List Vector)
    (sphereMaterial : Material) (st : TraceState) : TraceState :=
  match closestSphereIntersection spheres st.rayOrigin st.rayDirection with
  | some intersectionPoint =>
      let intersectionSphere := intersectionPoint.1
      let c0 := if st.depth = 0 then st.pixelColor + ambientLight intersectionSphere
        else st.pixelColor
      let c1 := lights.foldl
        (fun c light =>
          c + (contributionFromLight intersectionPoint intersectionSphere spheres light
                st.rayOrigin sphereMaterial * st.reflectionFactor)) c0
      let sphereNormal := (intersectionPoint.2 - intersectionSphere.1).normalized
      let reflect := 2 * (st.rayDirection.dot sphereNormal)
      { depth := st.depth + 1
        pixelColor := c1
        reflectionFactor := st.reflectionFactor * 0.6
        rayOrigin := intersectionPoint.2
        rayDirection := st.rayDirection - (sphereNormal * reflect) }
  | none => { st with depth := 10 }

/-- The guarded loop `while(currentDepth < 10) body` run with the given
amount of fuel. -/
noncomputable def traceLoop (spheres : List Sphere) (lights : List Vector)
    (sphereMaterial : Material) : ℕ → TraceState → TraceState
  | 0, st => st
  | fuel + 1, st =>
      if st.depth < 10 then traceLoop spheres lights sphereMaterial fuel
        (step spheres lights sphereMaterial st)
      else st

/-- The initial per-pixel state: depth 0, undefined color, factor 1. -/
def initState (rayOrigin rayDirection : Vector) : TraceState :=
  { depth := 0
    pixelColor := Color.undef
    reflectionFactor := 1
    rayOrigin := rayOrigin
    rayDirection := rayDirection }

/-- The pixel color computed by the per-pixel loop of `renderImage`
(10 units of fuel suffice, see the termination theorem). -/
noncomputable def tracePixel (spheres : List Sphere) (lights : List Vector)
    (sphereMaterial : Material) (rayOrigin rayDirection : Vector) : Color :=
  (traceLoop spheres lights sphereMaterial 10 (initState rayOrigin rayDirection)).pixelColor

/-- The framebuffer write of `renderImage`: per pixel, either the three
bytes `B, G, R` are stored and the pointer advances, or (undefined color)
the pointer merely advances past the pre-filled background bytes. -/
noncomputable def writePixels : List Color → List ℕ → List ℕ
  | [], buf => buf
  | c :: cs, buf =>
      (if c.isDefined then [c.blueByte, c.greenByte, c.redByte] else buf.take 3) ++
        writePixels cs (buf.drop 3)

/-- `pixelCoordinateToWorldCoordinate`. -/
noncomputable def pixelCoordinateToWorldCoordinate (resolution : ℕ) (coordinate : ℕ) : ℝ :=
  ((coordinate / (resolution : ℝ)) - 0.5) * 2

/-- The list of per-pixel colors produced by the double pixel loop of
`renderImage`, row by row. -/
noncomputable def pixelColors (spheres : List Sphere) (lights : List Vector)
    (sphereMaterial : Material) (resolution : ℕ) : List Color :=
  (List.range resolution).flatMap fun i =>
    (List.range resolution).map fun j =>
      tracePixel spheres lights sphereMaterial
        ⟨pixelCoordinateToWorldCoordinate resolution j,
          pixelCoordinateToWorldCoordinate resolution i, 0⟩
        ⟨0, 0, -1⟩

/-- `renderImage` of `output-raw.cpp` as a transformation of the
pre-filled background framebuffer. -/
noncomputable def renderImage (spheres : List Sphere) (lights : List Vector)
    (sphereMaterial : Material) (resolution : ℕ) (pixels : List ℕ) : List ℕ :=
  writePixels (pixelColors spheres lights sphereMaterial resolution) pixels

end Raw

namespace Simple

/-- `class Color` of the simpler variant: same shape, but the
three-argument constructor does NOT clamp the channels. -/
structure Color where
  defined : Bool
  red : ℝ
  green : ℝ
  blue : ℝ

namespace Color

/-- The default constructor `Color()`. -/
def undef : Color := ⟨false, 0, 0, 0⟩

/-- The three-argument constructor `Color(r, g, b)` of the simpler
variant: sets `defined`, stores the channels unclamped. -/
def rgb (r g b : ℝ) : Color := ⟨true, r, g, b⟩

/-- `Color::operator*`. -/
def smul (c : Color) (scale : ℝ) : Color :=
  rgb (c.red * scale) (c.green * scale) (c.blue * scale)

/-- `Color::operator+`. -/
def add (c d : Color) : Color :=
  rgb (c.red + d.red) (c.green + d.green) (c.blue + d.blue)

instance : Add Color := ⟨add⟩

instance : HMul Color ℝ Color := ⟨smul⟩

/-- `Color::isDefined`. -/
def isDefined (c : Color) : Bool := c.defined

end Color

/-- A sphere of the simpler variant: `std::pair<Vector, Color>`. -/
abbrev Sphere : Type := Vector × Color

/-- `spherePoint` (identical to the richer variant's). -/
noncomputable def spherePoint (rayOrigin rayDirection : Vector) (t : ℝ) : Vector :=
  rayOrigin + (rayDirection * t)

/-- `calculateSphereIntersection` of the simpler variant: picks the single
root `s - q` when the origin is outside the sphere, else `s + q`, and
reports the hit point when that root exceeds the epsilon. -/
noncomputable def calculateSphereIntersection (sphereCenter rayOrigin rayDirection : Vector) :
    Option Vector :=
  let sphereRadius : ℝ := 0.5
  let l := sphereCenter - rayOrigin
  let s := l.dot rayDirection
  let lSquared := l.dot l
  let sphereRadiusSquared := sphereRadius * sphereRadius
  if s < 0 ∧ lSquared > sphereRadiusSquared then none
  else if lSquared - (s * s) > sphereRadiusSquared then none
  else
    let q := Real.sqrt (sphereRadiusSquared - (lSquared - (s * s)))
    let t := if lSquared > sphereRadiusSquared then s - q else s + q
    if t > 1e-5 then some (spherePoint rayOrigin rayDirection t) else none

/-- `calculateLambert` of the simpler variant (hardcoded light position). -/
noncomputable def calculateLambert (sphereCenter intersection : Vector) : ℝ :=
  let lightPosition : Vector := ⟨0.5, 0.5, 0⟩
  let lightDirection := (lightPosition - intersection).normalized
  let sphereNormal := (intersection - sphereCenter).normalized
  max 0 (lightDirection.dot sphereNormal)

/-- `isShadowed` of the simpler variant: any sphere intersects the shadow
ray toward the hardcoded light. -/
noncomputable def isShadowed (point : Vector) (spheres : List Sphere) : Bool :=
  let lightPosition : Vector := ⟨0.5, 0.5, 0⟩
  let lightDirection := (lightPosition - point).normalized
  spheres.any fun sphere =>
    (calculateSphereIntersection sphere.1 point lightDirection).isSome

/-- One iteration of the per-sphere loop in `renderImage` of the simpler
variant: an unshadowed hit ASSIGNS the lit color (overwriting the
accumulator), a shadowed hit adds black, a miss leaves it alone.  The
shadow test always runs against the whole scene. -/
noncomputable def pixelStep (scene : List Sphere) (rayOrigin rayDirection : Vector)
    (pixelColor : Color) (sphere : Sphere) : Color :=
  match calculateSphereIntersection sphere.1 rayOrigin rayDirection with
  | some pt =>
      if isShadowed pt scene then pixelColor + Color.rgb 0 0 0
      else sphere.2 * calculateLambert sphere.1 pt
  | none => pixelColor

/-- The whole per-pixel sphere loop of the simpler variant's
`renderImage`, starting from the default (undefined) color. -/
noncomputable def renderPixel (scene : List Sphere) (rayOrigin rayDirection : Vector) : Color :=
  scene.foldl (pixelStep scene rayOrigin rayDirection) Color.undef

end Simple

/-! ## Theorems -/

@[simp] theorem Vector.sub_mk (a b c d e f : ℝ) :
    (⟨a, b, c⟩ : Vector) - (⟨d, e, f⟩ : Vector) = ⟨a - d, b - e, c - f⟩ := rfl

@[simp] theorem Vector.add_mk (a b c d e f : ℝ) :
    (⟨a, b, c⟩ : Vector) + (⟨d, e, f⟩ : Vector) = ⟨a + d, b + e, c + f⟩ := rfl

@[simp] theorem Vector.smul_mk (a b c s : ℝ) :
    (⟨a, b, c⟩ : Vector) * s = (⟨a * s, b * s, c * s⟩ : Vector) := rfl

@[simp] theorem Vector.dot_mk (a b c d e f : ℝ) :
    Vector.dot ⟨a, b, c⟩ ⟨d, e, f⟩ = (a * d) + (b * e) + (c * f) := rfl

theorem foldl_flatMap_eq {α β γ : Type} (l : List α) (g : α → List β) (f : γ → β → γ)
    (i : γ) : (l.flatMap g).foldl f i = l.foldl (fun x a => (g a).foldl f x) i := by
  induction l generalizing i with
  | nil => rfl
  | cons a l ih => simp [List.flatMap_cons, List.foldl_append, ih]

theorem Raw.updateClosest_none (c : ℝ × Raw.IntersectionPoint) :
    Raw.updateClosest none c = if c.1 > 1e-5 then some c else none := rfl

theorem Raw.updateClosest_some (p c : ℝ × Raw.IntersectionPoint) :
    Raw.updateClosest (some p) c = if c.1 > 1e-5 ∧ c.1 < p.1 then some c else some p := rfl

theorem Raw.closest_eq_foldl_candidates (spheres : List Raw.Sphere)
    (rayOrigin rayDirection : Vector) :
    Raw.closestSphereIntersection spheres rayOrigin rayDirection =
      ((Raw.candidates spheres rayOrigin rayDirection).foldl Raw.updateClosest none).map
        Prod.snd := by
  unfold Raw.closestSphereIntersection Raw.candidates
  rw [foldl_flatMap_eq]
  simp only [List.foldl_map]

theorem Raw.foldl_updateClosest_spec (cs : List (ℝ × Raw.IntersectionPoint))
    (st : Option (ℝ × Raw.IntersectionPoint)) :
    (cs.foldl Raw.updateClosest st = none ↔ st = none ∧ ∀ c ∈ cs, ¬ c.1 > 1e-5) ∧
    (∀ p, cs.foldl Raw.updateClosest st = some p →
      ((p ∈ cs ∧ p.1 > 1e-5) ∨ st = some p) ∧
      (∀ c ∈ cs, c.1 > 1e-5 → p.1 ≤ c.1) ∧
      (∀ q, st = some q → p.1 ≤ q.1)) := by
  induction cs generalizing st with
  | nil =>
    refine ⟨by simp, fun p hp => ?_⟩
    simp only [List.foldl_nil] at hp
    exact ⟨Or.inr hp, by simp, fun q hq => by rw [hp] at hq; cases hq; exact le_refl _⟩
  | cons c cs ih =>
    simp only [List.foldl_cons]
    obtain ⟨ih1, ih2⟩ := ih (Raw.updateClosest st c)
    constructor
    · rw [ih1]
      cases st with
      | none =>
        rw [Raw.updateClosest_none]
        by_cases hc : c.1 > 1e-5
        · simp [hc]
        · rw [if_neg hc]
          constructor
          · rintro ⟨-, h⟩
            refine ⟨rfl, fun c' hm => ?_⟩
            rcases List.mem_cons.mp hm with rfl | hm'
            · exact hc
            · exact h c' hm'
          · rintro ⟨-, h⟩
            exact ⟨rfl, fun c' hm => h c' (List.mem_cons_of_mem _ hm)⟩
      | some q =>
        rw [Raw.updateClosest_some]
        split <;> simp
    · intro p hp
      obtain ⟨hmem, hmin, hst⟩ := ih2 p hp
      cases st with
      | none =>
        rw [Raw.updateClosest_none] at hmem hst
        by_cases hc : c.1 > 1e-5
        · rw [if_pos hc] at hmem hst
          refine ⟨?_, ?_, by simp⟩
          · rcases hmem with ⟨hpcs, hpv⟩ | hpc
            · exact Or.inl ⟨List.mem_cons_of_mem _ hpcs, hpv⟩
            · obtain rfl : c = p := Option.some.inj hpc
              exact Or.inl ⟨List.mem_cons_self _ _, hc⟩
          · intro c' hc' hv'
            rcases List.mem_cons.mp hc' with h | h
            · exact h ▸ hst c rfl
            · exact hmin c' h hv'
        · rw [if_neg hc] at hmem hst
          rcases hmem with ⟨hpcs, hpv⟩ | hpc
          · refine ⟨Or.inl ⟨List.mem_cons_of_mem _ hpcs, hpv⟩, ?_, by simp⟩
            intro c' hc' hv'
            rcases List.mem_cons.mp hc' with h | h
            · exact absurd (h ▸ hv') hc
            · exact hmin c' h hv'
          · cases hpc
      | some q₀ =>
        rw [Raw.updateClosest_some] at hmem hst
        by_cases hcond : c.1 > 1e-5 ∧ c.1 < q₀.1
        · rw [if_pos hcond] at hmem hst
          have hpq : p.1 ≤ c.1 := hst c rfl
          refine ⟨?_, ?_, ?_⟩
          · rcases hmem with ⟨hpcs, hpv⟩ | hpc
            · exact Or.inl ⟨List.mem_cons_of_mem _ hpcs, hpv⟩
            · obtain rfl : c = p := Option.some.inj hpc
              exact Or.inl ⟨List.mem_cons_self _ _, hcond.1⟩
          · intro c' hc' hv'
            rcases List.mem_cons.mp hc' with h | h
            · exact h ▸ hpq
            · exact hmin c' h hv'
          · intro q hq
            cases hq
            exact le_of_lt (lt_of_le_of_lt hpq hcond.2)
        · rw [if_neg hcond] at hmem hst
          have hpq : p.1 ≤ q₀.1 := hst q₀ rfl
          refine ⟨?_, ?_, ?_⟩
          · rcases hmem with ⟨hpcs, hpv⟩ | hpc
            · exact Or.inl ⟨List.mem_cons_of_mem _ hpcs, hpv⟩
            · exact Or.inr (by rw [← hpc])
          · intro c' hc' hv'
            rcases List.mem_cons.mp hc' with h | h
            · subst h
              exact le_trans hpq (le_of_not_lt fun hlt => hcond ⟨hv', hlt⟩)
            · exact hmin c' h hv'
          · intro q hq
            cases hq
            exact hpq

theorem Raw.mem_candidates (spheres : List Raw.Sphere) (rayOrigin rayDirection : Vector)
    (c : ℝ × Raw.IntersectionPoint) :
    c ∈ Raw.candidates spheres rayOrigin rayDirection ↔
      ∃ sphere ∈ spheres, ∃ t ∈ Raw.raySphereIntersections sphere rayOrigin rayDirection,
        c = (t, (sphere, Raw.spherePoint rayOrigin rayDirection t)) := by
  unfold Raw.candidates
  simp only [List.mem_flatMap, List.mem_map]
  constructor
  · rintro ⟨sphere, hs, t, ht, rfl⟩
    exact ⟨sphere, hs, t, ht, rfl⟩
  · rintro ⟨sphere, hs, t, ht, rfl⟩
    exact ⟨sphere, hs, t, ht, rfl⟩

theorem Raw.closest_isSome_iff (spheres : List Raw.Sphere)
    (rayOrigin rayDirection : Vector) :
    (Raw.closestSphereIntersection spheres rayOrigin rayDirection).isSome ↔
      ∃ sphere ∈ spheres,
        ∃ t ∈ Raw.raySphereIntersections sphere rayOrigin rayDirection, t > 1e-5 := by
  rw [Raw.closest_eq_foldl_candidates]
  obtain ⟨h1, h2⟩ :=
    Raw.foldl_updateClosest_spec (Raw.candidates spheres rayOrigin rayDirection) none
  have hmap : ∀ (X : Option (ℝ × Raw.IntersectionPoint)),
      (X.map Prod.snd).isSome = X.isSome := fun X => by cases X <;> rfl
  rw [hmap]
  constructor
  · intro hs
    obtain ⟨p, hp⟩ := Option.isSome_iff_exists.mp hs
    obtain ⟨hmem, -, -⟩ := h2 p hp
    rcases hmem with ⟨hpc, hpv⟩ | habs
    · obtain ⟨sphere, hsp, t, ht, rfl⟩ := (Raw.mem_candidates _ _ _ _).mp hpc
      exact ⟨sphere, hsp, t, ht, hpv⟩
    · cases habs
  · rintro ⟨sphere, hsp, t, ht, hv⟩
    refine Option.ne_none_iff_isSome.mp fun hnone => ?_
    exact absurd hv ((h1.mp hnone).2 _
      ((Raw.mem_candidates _ _ _ _).mpr ⟨sphere, hsp, t, ht, rfl⟩))

/-- Claim C1: `closestSphereIntersection` returns a hit exactly when some
sphere has an intersection root `t > 1e-5`, and in that case the returned
sphere and world point correspond to the minimum such `t` across all
spheres and all roots; otherwise it returns no hit. -/
theorem closestSphereIntersection_spec (spheres : List Raw.Sphere)
    (rayOrigin rayDirection : Vector) :
    ((Raw.closestSphereIntersection spheres rayOrigin rayDirection).isSome ↔
      ∃ sphere ∈ spheres,
        ∃ t ∈ Raw.raySphereIntersections sphere rayOrigin rayDirection, t > 1e-5) ∧
    (∀ ip, Raw.closestSphereIntersection spheres rayOrigin rayDirection = some ip →
      ∃ t > (1e-5 : ℝ), ip.1 ∈ spheres ∧
        t ∈ Raw.raySphereIntersections ip.1 rayOrigin rayDirection ∧
        ip.2 = Raw.spherePoint rayOrigin rayDirection t ∧
        ∀ sphere ∈ spheres,
          ∀ u ∈ Raw.raySphereIntersections sphere rayOrigin rayDirection, u > 1e-5 → t ≤ u) := by
  refine ⟨Raw.closest_isSome_iff spheres rayOrigin rayDirection, ?_⟩
  rw [Raw.closest_eq_foldl_candidates]
  obtain ⟨h1, h2⟩ :=
    Raw.foldl_updateClosest_spec (Raw.candidates spheres rayOrigin rayDirection) none
  intro ip hip
  rw [Option.map_eq_some'] at hip
  obtain ⟨p, hp, rfl⟩ := hip
  obtain ⟨hmem, hmin, -⟩ := h2 p hp
  rcases hmem with ⟨hpc, hpv⟩ | habs
  · obtain ⟨sphere, hs, t, ht, rfl⟩ := (Raw.mem_candidates _ _ _ _).mp hpc
    refine ⟨t, hpv, hs, ht, rfl, fun sphere' hs' u hu huv => ?_⟩
    exact hmin (u, (sphere', Raw.spherePoint rayOrigin rayDirection u))
      ((Raw.mem_candidates _ _ _ _).mpr ⟨sphere', hs', u, hu, rfl⟩) huv
  · cases habs

theorem sqrt_quarter : Real.sqrt (1 / 4) = 1 / 2 := by
  rw [show (1 / 4 : ℝ) = (1 / 2) ^ 2 by norm_num, Real.sqrt_sq (by norm_num)]

theorem Raw.raySphereIntersections_concrete (albedo : Raw.Color) :
    Raw.raySphereIntersections (⟨0, 0, -1⟩, albedo) ⟨0, 0, 0⟩ ⟨0, 0, -1⟩ =
      [1 / 2, 3 / 2] := by
  simp only [Raw.raySphereIntersections, Vector.sub_mk, Vector.dot_mk]
  norm_num
  rw [show (4 : ℝ) = 2 ^ 2 by norm_num, Real.sqrt_sq (by norm_num : (0 : ℝ) ≤ 2)]
  norm_num

theorem Raw.closest_concrete (albedo : Raw.Color) :
    Raw.closestSphereIntersection [(⟨0, 0, -1⟩, albedo)] ⟨0, 0, 0⟩ ⟨0, 0, -1⟩ =
      some ((⟨0, 0, -1⟩, albedo), ⟨0, 0, -(1 / 2)⟩) := by
  unfold Raw.closestSphereIntersection
  simp only [List.foldl_cons, List.foldl_nil, Raw.raySphereIntersections_concrete]
  rw [Raw.updateClosest_none, if_pos (by norm_num)]
  rw [Raw.updateClosest_some, if_neg (by norm_num)]
  simp only [Option.map_some']
  simp [Raw.spherePoint]

/-- Claim C2: for every sphere and ray, with `l = center - origin`,
`s = l·direction`, `l² = l·l`, `r² = 0.25`: `raySphereIntersections`
returns no roots when `s < 0` and `l² > r²`, returns no roots when
`l² - s² > r²`, and otherwise returns exactly the two roots `s - q` and
`s + q` where `q = sqrt(r² - (l² - s²))`. -/
theorem raySphereIntersections_roots (sphere : Raw.Sphere) (rayOrigin rayDirection : Vector)
    (l : Vector) (s lSq q : ℝ)
    (hl : l = sphere.1 - rayOrigin) (hs : s = l.dot rayDirection)
    (hlSq : lSq = l.dot l)
    (hq : q = Real.sqrt (0.25 - (lSq - s * s))) :
    (s < 0 ∧ lSq > 0.25 →
      Raw.raySphereIntersections sphere rayOrigin rayDirection = []) ∧
    (lSq - s * s > 0.25 →
      Raw.raySphereIntersections sphere rayOrigin rayDirection = []) ∧
    (¬(s < 0 ∧ lSq > 0.25) → ¬(lSq - s * s > 0.25) →
      Raw.raySphereIntersections sphere rayOrigin rayDirection = [s - q, s + q]) := by
  subst hl hs hlSq hq
  simp only [Raw.raySphereIntersections,
    show (0.5 : ℝ) * 0.5 = 0.25 from by norm_num]
  refine ⟨fun h => by rw [if_pos h], fun h2 => ?_, fun h1 h2 => by rw [if_neg h1, if_neg h2]⟩
  by_cases h1 : (sphere.1 - rayOrigin).dot rayDirection < 0 ∧
    (sphere.1 - rayOrigin).dot (sphere.1 - rayOrigin) > 0.25
  · rw [if_pos h1]
  · rw [if_neg h1, if_pos h2]

/-- Witness instantiating C2's theorem at a concrete sphere and ray whose
scan reaches the two-root branch. -/
theorem raySphereIntersections_roots_witness :
    Raw.raySphereIntersections ((⟨0, 0, -1⟩ : Vector), Raw.Color.undef) ⟨0, 0, 0⟩ ⟨0, 0, -1⟩ =
      [1 - Real.sqrt (0.25 - (1 - 1 * 1)), 1 + Real.sqrt (0.25 - (1 - 1 * 1))] :=
  (raySphereIntersections_roots ((⟨0, 0, -1⟩ : Vector), Raw.Color.undef) ⟨0, 0, 0⟩ ⟨0, 0, -1⟩
    ⟨0, 0, -1⟩ 1 1 (Real.sqrt (0.25 - (1 - 1 * 1)))
    (by norm_num) (by norm_num) (by norm_num) rfl).2.2
    (by norm_num) (by norm_num)

/-- Witness instantiating C1's theorem on a concrete one-sphere scene. -/
theorem closestSphereIntersection_spec_witness :
    ((Raw.closestSphereIntersection [((⟨0, 0, -1⟩ : Vector), Raw.Color.undef)] ⟨0, 0, 0⟩
        ⟨0, 0, -1⟩).isSome ↔
      ∃ sphere ∈ [((⟨0, 0, -1⟩ : Vector), Raw.Color.undef)],
        ∃ t ∈ Raw.raySphereIntersections sphere ⟨0, 0, 0⟩ ⟨0, 0, -1⟩, t > 1e-5) ∧
    (∀ ip, Raw.closestSphereIntersection [((⟨0, 0, -1⟩ : Vector), Raw.Color.undef)] ⟨0, 0, 0⟩
        ⟨0, 0, -1⟩ = some ip →
      ∃ t > (1e-5 : ℝ), ip.1 ∈ [((⟨0, 0, -1⟩ : Vector), Raw.Color.undef)] ∧
        t ∈ Raw.raySphereIntersections ip.1 ⟨0, 0, 0⟩ ⟨0, 0, -1⟩ ∧
        ip.2 = Raw.spherePoint ⟨0, 0, 0⟩ ⟨0, 0, -1⟩ t ∧
        ∀ sphere ∈ [((⟨0, 0, -1⟩ : Vector), Raw.Color.undef)],
          ∀ u ∈ Raw.raySphereIntersections sphere ⟨0, 0, 0⟩ ⟨0, 0, -1⟩, u > 1e-5 → t ≤ u) :=
  closestSphereIntersection_spec [((⟨0, 0, -1⟩ : Vector), Raw.Color.undef)] ⟨0, 0, 0⟩ ⟨0, 0, -1⟩

/-- Claim C3: in the simpler variant, when neither early-out triggers,
`calculateSphereIntersection` selects the single root `t = s - q` when the
origin is outside the sphere (`l² > r²`) and `t = s + q` otherwise, and
reports a hit with point `origin + direction * t` exactly when `t`
exceeds `1e-5`. -/
theorem calculateSphereIntersection_selects_root
    (sphereCenter rayOrigin rayDirection : Vector)
    (l : Vector) (s lSq q t : ℝ)
    (hl : l = sphereCenter - rayOrigin) (hs : s = l.dot rayDirection)
    (hlSq : lSq = l.dot l)
    (hq : q = Real.sqrt (0.25 - (lSq - s * s)))
    (ht : t = if lSq > 0.25 then s - q else s + q)
    (h1 : ¬(s < 0 ∧ lSq > 0.25)) (h2 : ¬(lSq - s * s > 0.25)) :
    Simple.calculateSphereIntersection sphereCenter rayOrigin rayDirection =
      if t > 1e-5 then some (Simple.spherePoint rayOrigin rayDirection t) else none := by
  subst hl hs hlSq hq ht
  simp only [Simple.calculateSphereIntersection,
    show (0.5 : ℝ) * 0.5 = 0.25 from by norm_num]
  rw [if_neg h1, if_neg h2]

/-- Witness instantiating C3's theorem at a concrete outside-origin ray:
the selected root is `s - q = 1 - 1/2`. -/
theorem calculateSphereIntersection_selects_root_witness :
    Simple.calculateSphereIntersection ⟨0, 0, -1⟩ ⟨0, 0, 0⟩ ⟨0, 0, -1⟩ =
      if (1 / 2 : ℝ) > 1e-5 then
        some (Simple.spherePoint ⟨0, 0, 0⟩ ⟨0, 0, -1⟩ (1 / 2)) else none :=
  calculateSphereIntersection_selects_root ⟨0, 0, -1⟩ ⟨0, 0, 0⟩ ⟨0, 0, -1⟩
    ⟨0, 0, -1⟩ 1 1 (1 / 2) (1 / 2)
    (by norm_num) (by norm_num) (by norm_num)
    (by rw [show (0.25 : ℝ) - (1 - 1 * 1) = (1 / 2) ^ 2 by norm_num,
      Real.sqrt_sq (by norm_num : (0 : ℝ) ≤ 1 / 2)])
    (by rw [if_pos (by norm_num : (1 : ℝ) > 0.25)]; norm_num)
    (by norm_num) (by norm_num)

theorem Raw.isShadowed_eq (point : Vector) (spheres : List Raw.Sphere)
    (lightPosition : Vector) :
    Raw.isShadowed point spheres lightPosition =
      (Raw.closestSphereIntersection spheres point
        ((lightPosition - point).normalized)).isSome := rfl

/-- Claim C4: `contributionFromLight` returns pure black exactly when the
shadow ray from the hit point toward the light intersects some sphere of
the same scene (with a root above the epsilon), and otherwise returns
`albedo * lambertTerm + albedo * phongTerm`. -/
theorem contributionFromLight_spec (intersectionPoint : Raw.IntersectionPoint)
    (intersectionSphere : Raw.Sphere) (spheres : List Raw.Sphere)
    (lightPosition rayOrigin : Vector) (sphereMaterial : Raw.Material) :
    ((∃ sphere ∈ spheres,
        ∃ t ∈ Raw.raySphereIntersections sphere intersectionPoint.2
          ((lightPosition - intersectionPoint.2).normalized), t > 1e-5) →
      Raw.contributionFromLight intersectionPoint intersectionSphere spheres lightPosition
        rayOrigin sphereMaterial = Raw.Color.rgb 0 0 0) ∧
    ((¬ ∃ sphere ∈ spheres,
        ∃ t ∈ Raw.raySphereIntersections sphere intersectionPoint.2
          ((lightPosition - intersectionPoint.2).normalized), t > 1e-5) →
      Raw.contributionFromLight intersectionPoint intersectionSphere spheres lightPosition
        rayOrigin sphereMaterial =
        (intersectionSphere.2 *
          Raw.calculateLambert intersectionSphere.1 intersectionPoint.2 lightPosition) +
        (intersectionSphere.2 *
          Raw.calculatePhong intersectionSphere.1 intersectionPoint.2 lightPosition
            rayOrigin sphereMaterial)) := by
  constructor
  · intro hex
    unfold Raw.contributionFromLight
    rw [if_pos]
    rw [Raw.isShadowed_eq]
    exact (Raw.closest_isSome_iff _ _ _).mpr hex
  · intro hnex
    unfold Raw.contributionFromLight
    rw [if_neg]
    intro h
    rw [Raw.isShadowed_eq] at h
    exact hnex ((Raw.closest_isSome_iff _ _ _).mp h)

/-- Witness instantiating C4's theorem on a concrete empty scene. -/
theorem contributionFromLight_spec_witness :
    ((∃ sphere ∈ ([] : List Raw.Sphere),
        ∃ t ∈ Raw.raySphereIntersections sphere
          (((⟨0, 0, 0⟩ : Vector), Raw.Color.undef), (⟨0, 0, -1⟩ : Vector)).2
          (((⟨1, 1, 0⟩ : Vector) -
            (((⟨0, 0, 0⟩ : Vector), Raw.Color.undef), (⟨0, 0, -1⟩ : Vector)).2).normalized),
          t > 1e-5) →
      Raw.contributionFromLight (((⟨0, 0, 0⟩ : Vector), Raw.Color.undef), (⟨0, 0, -1⟩ : Vector))
        ((⟨0, 0, 0⟩ : Vector), Raw.Color.undef) [] ⟨1, 1, 0⟩ ⟨0, 0, 0⟩ ⟨5, 100⟩ =
        Raw.Color.rgb 0 0 0) ∧
    ((¬ ∃ sphere ∈ ([] : List Raw.Sphere),
        ∃ t ∈ Raw.raySphereIntersections sphere
          (((⟨0, 0, 0⟩ : Vector), Raw.Color.undef), (⟨0, 0, -1⟩ : Vector)).2
          (((⟨1, 1, 0⟩ : Vector) -
            (((⟨0, 0, 0⟩ : Vector), Raw.Color.undef), (⟨0, 0, -1⟩ : Vector)).2).normalized),
          t > 1e-5) →
      Raw.contributionFromLight (((⟨0, 0, 0⟩ : Vector), Raw.Color.undef), (⟨0, 0, -1⟩ : Vector))
        ((⟨0, 0, 0⟩ : Vector), Raw.Color.undef) [] ⟨1, 1, 0⟩ ⟨0, 0, 0⟩ ⟨5, 100⟩ =
        (((⟨0, 0, 0⟩ : Vector), Raw.Color.undef).2 *
          Raw.calculateLambert (((⟨0, 0, 0⟩ : Vector), Raw.Color.undef)).1
            ((((⟨0, 0, 0⟩ : Vector), Raw.Color.undef), (⟨0, 0, -1⟩ : Vector))).2 ⟨1, 1, 0⟩) +
        (((⟨0, 0, 0⟩ : Vector), Raw.Color.undef).2 *
          Raw.calculatePhong (((⟨0, 0, 0⟩ : Vector), Raw.Color.undef)).1
            ((((⟨0, 0, 0⟩ : Vector), Raw.Color.undef), (⟨0, 0, -1⟩ : Vector))).2 ⟨1, 1, 0⟩
            ⟨0, 0, 0⟩ ⟨5, 100⟩)) :=
  contributionFromLight_spec (((⟨0, 0, 0⟩ : Vector), Raw.Color.undef), (⟨0, 0, -1⟩ : Vector))
    ((⟨0, 0, 0⟩ : Vector), Raw.Color.undef) [] ⟨1, 1, 0⟩ ⟨0, 0, 0⟩ ⟨5, 100⟩

theorem Raw.step_depth (spheres : List Raw.Sphere) (lights : List Vector)
    (sphereMaterial : Raw.Material) (st : Raw.TraceState) :
    (Raw.step spheres lights sphereMaterial st).depth = st.depth + 1 ∨
    (Raw.step spheres lights sphereMaterial st).depth = 10 := by
  cases hc : Raw.closestSphereIntersection spheres st.rayOrigin st.rayDirection with
  | some ip => exact Or.inl (by simp only [Raw.step, hc])
  | none => exact Or.inr (by simp only [Raw.step, hc])

theorem Raw.traceLoop_zero (spheres : List Raw.Sphere) (lights : List Vector)
    (sphereMaterial : Raw.Material) (st : Raw.TraceState) :
    Raw.traceLoop spheres lights sphereMaterial 0 st = st := rfl

theorem Raw.traceLoop_succ (spheres : List Raw.Sphere) (lights : List Vector)
    (sphereMaterial : Raw.Material) (fuel : ℕ) (st : Raw.TraceState) :
    Raw.traceLoop spheres lights sphereMaterial (fuel + 1) st =
      if st.depth < 10 then
        Raw.traceLoop spheres lights sphereMaterial fuel (Raw.step spheres lights sphereMaterial st)
      else st := rfl

theorem Raw.traceLoop_stuck (spheres : List Raw.Sphere) (lights : List Vector)
    (sphereMaterial : Raw.Material) (n : ℕ) (st : Raw.TraceState) (h : ¬ st.depth < 10) :
    Raw.traceLoop spheres lights sphereMaterial n st = st := by
  cases n with
  | zero => rfl
  | succ n => rw [Raw.traceLoop_succ, if_neg h]

theorem Raw.traceLoop_depth_ge (spheres : List Raw.Sphere) (lights : List Vector)
    (sphereMaterial : Raw.Material) (n : ℕ) (st : Raw.TraceState) (h : 10 ≤ st.depth + n) :
    10 ≤ (Raw.traceLoop spheres lights sphereMaterial n st).depth := by
  induction n generalizing st with
  | zero => simpa using h
  | succ n ih =>
    rw [Raw.traceLoop_succ]
    by_cases hd : st.depth < 10
    · rw [if_pos hd]
      refine ih (Raw.step spheres lights sphereMaterial st) ?_
      rcases Raw.step_depth spheres lights sphereMaterial st with h1 | h1 <;> omega
    · rw [if_neg hd]
      omega

theorem Raw.traceLoop_add (spheres : List Raw.Sphere) (lights : List Vector)
    (sphereMaterial : Raw.Material) (m k : ℕ) (st : Raw.TraceState) :
    Raw.traceLoop spheres lights sphereMaterial (m + k) st =
      Raw.traceLoop spheres lights sphereMaterial k
        (Raw.traceLoop spheres lights sphereMaterial m st) := by
  induction m generalizing st with
  | zero => rw [Raw.traceLoop_zero, Nat.zero_add]
  | succ m ih =>
    by_cases hd : st.depth < 10
    · rw [show m + 1 + k = (m + k) + 1 from by omega, Raw.traceLoop_succ, if_pos hd, ih,
        Raw.traceLoop_succ, if_pos hd]
    · rw [show m + 1 + k = (m + k) + 1 from by omega, Raw.traceLoop_succ, if_neg hd,
        Raw.traceLoop_succ, if_neg hd, Raw.traceLoop_stuck spheres lights sphereMaterial k st hd]

/-- Claim C5: the per-pixel tracing loop terminates after at most 10
iterations: running it with fuel beyond 10 changes nothing, and each
iteration either increments the depth counter by one or, on a miss,
forces it to the bound 10. -/
theorem traceLoop_terminates (spheres : List Raw.Sphere) (lights : List Vector)
    (sphereMaterial : Raw.Material) (st : Raw.TraceState) (h : st.depth = 0) :
    (∀ k, Raw.traceLoop spheres lights sphereMaterial (10 + k) st =
      Raw.traceLoop spheres lights sphereMaterial 10 st) ∧
    (∀ st' : Raw.TraceState,
      (Raw.step spheres lights sphereMaterial st').depth = st'.depth + 1 ∨
      (Raw.step spheres lights sphereMaterial st').depth = 10) := by
  refine ⟨fun k => ?_, Raw.step_depth spheres lights sphereMaterial⟩
  rw [Raw.traceLoop_add]
  refine Raw.traceLoop_stuck spheres lights sphereMaterial k _ ?_
  have := Raw.traceLoop_depth_ge spheres lights sphereMaterial 10 st (by omega)
  omega

/-- Witness instantiating C5's theorem at the concrete initial state of a
pixel over an empty scene. -/
theorem traceLoop_terminates_witness :
    (Raw.initState ⟨0, 0, 0⟩ ⟨0, 0, -1⟩).depth = 0 ∧
    ((∀ k, Raw.traceLoop [] [] ⟨5, 100⟩ (10 + k) (Raw.initState ⟨0, 0, 0⟩ ⟨0, 0, -1⟩) =
      Raw.traceLoop [] [] ⟨5, 100⟩ 10 (Raw.initState ⟨0, 0, 0⟩ ⟨0, 0, -1⟩)) ∧
    (∀ st' : Raw.TraceState,
      (Raw.step [] [] ⟨5, 100⟩ st').depth = st'.depth + 1 ∨
      (Raw.step [] [] ⟨5, 100⟩ st').depth = 10)) :=
  ⟨rfl, traceLoop_terminates [] [] ⟨5, 100⟩ (Raw.initState ⟨0, 0, 0⟩ ⟨0, 0, -1⟩) rfl⟩

/-- Claim C6: if the reflection factor equals `0.6 ^ depth` at the start
of an iteration that hits, then the light contributions of that iteration
are scaled by exactly `0.6 ^ depth`, the decay is applied afterwards so
the new factor is `0.6 ^ (depth + 1) = 0.6 ^ newDepth`, and the initial
state satisfies the invariant with factor `1 = 0.6 ^ 0`. -/
theorem reflectionFactor_invariant (spheres : List Raw.Sphere) (lights : List Vector)
    (sphereMaterial : Raw.Material) (st : Raw.TraceState) (ip : Raw.IntersectionPoint)
    (h : st.reflectionFactor = (0.6 : ℝ) ^ st.depth)
    (hhit : Raw.closestSphereIntersection spheres st.rayOrigin st.rayDirection = some ip) :
    (Raw.step spheres lights sphereMaterial st).depth = st.depth + 1 ∧
    (Raw.step spheres lights sphereMaterial st).reflectionFactor =
      (0.6 : ℝ) ^ (Raw.step spheres lights sphereMaterial st).depth ∧
    (Raw.step spheres lights sphereMaterial st).pixelColor =
      lights.foldl
        (fun c light =>
          c + (Raw.contributionFromLight ip ip.1 spheres light st.rayOrigin sphereMaterial *
            ((0.6 : ℝ) ^ st.depth)))
        (if st.depth = 0 then st.pixelColor + Raw.ambientLight ip.1 else st.pixelColor) ∧
    (Raw.initState st.rayOrigin st.rayDirection).reflectionFactor =
      (0.6 : ℝ) ^ (Raw.initState st.rayOrigin st.rayDirection).depth := by
  refine ⟨by simp only [Raw.step, hhit], ?_, ?_, by norm_num [Raw.initState]⟩
  · simp only [Raw.step, hhit, h, pow_succ]
  · simp only [Raw.step, hhit, h]

/-- Witness instantiating C6's theorem at the initial state over a
concrete one-sphere scene that the primary ray hits. -/
theorem reflectionFactor_invariant_witness :
    (Raw.initState ⟨0, 0, 0⟩ ⟨0, 0, -1⟩).reflectionFactor =
      (0.6 : ℝ) ^ (Raw.initState ⟨0, 0, 0⟩ ⟨0, 0, -1⟩).depth ∧
    Raw.closestSphereIntersection [((⟨0, 0, -1⟩ : Vector), Raw.Color.undef)]
      (Raw.initState ⟨0, 0, 0⟩ ⟨0, 0, -1⟩).rayOrigin
      (Raw.initState ⟨0, 0, 0⟩ ⟨0, 0, -1⟩).rayDirection =
      some (((⟨0, 0, -1⟩ : Vector), Raw.Color.undef), (⟨0, 0, -(1 / 2)⟩ : Vector)) ∧
    ((Raw.step [((⟨0, 0, -1⟩ : Vector), Raw.Color.undef)] [] ⟨5, 100⟩
        (Raw.initState ⟨0, 0, 0⟩ ⟨0, 0, -1⟩)).depth =
      (Raw.initState ⟨0, 0, 0⟩ ⟨0, 0, -1⟩).depth + 1 ∧
    (Raw.step [((⟨0, 0, -1⟩ : Vector), Raw.Color.undef)] [] ⟨5, 100⟩
        (Raw.initState ⟨0, 0, 0⟩ ⟨0, 0, -1⟩)).reflectionFactor =
      (0.6 : ℝ) ^ (Raw.step [((⟨0, 0, -1⟩ : Vector), Raw.Color.undef)] [] ⟨5, 100⟩
        (Raw.initState ⟨0, 0, 0⟩ ⟨0, 0, -1⟩)).depth ∧
    (Raw.step [((⟨0, 0, -1⟩ : Vector), Raw.Color.undef)] [] ⟨5, 100⟩
        (Raw.initState ⟨0, 0, 0⟩ ⟨0, 0, -1⟩)).pixelColor =
      List.foldl
        (fun c light =>
          c + (Raw.contributionFromLight
            (((⟨0, 0, -1⟩ : Vector), Raw.Color.undef), (⟨0, 0, -(1 / 2)⟩ : Vector))
            (((⟨0, 0, -1⟩ : Vector), Raw.Color.undef), (⟨0, 0, -(1 / 2)⟩ : Vector)).1
            [((⟨0, 0, -1⟩ : Vector), Raw.Color.undef)] light
            (Raw.initState ⟨0, 0, 0⟩ ⟨0, 0, -1⟩).rayOrigin ⟨5, 100⟩ *
            ((0.6 : ℝ) ^ (Raw.initState ⟨0, 0, 0⟩ ⟨0, 0, -1⟩).depth)))
        (if (Raw.initState ⟨0, 0, 0⟩ ⟨0, 0, -1⟩).depth = 0 then
          (Raw.initState ⟨0, 0, 0⟩ ⟨0, 0, -1⟩).pixelColor +
            Raw.ambientLight (((⟨0, 0, -1⟩ : Vector), Raw.Color.undef),
              (⟨0, 0, -(1 / 2)⟩ : Vector)).1
        else (Raw.initState ⟨0, 0, 0⟩ ⟨0, 0, -1⟩).pixelColor) [] ∧
    (Raw.initState (Raw.initState ⟨0, 0, 0⟩ ⟨0, 0, -1⟩).rayOrigin
        (Raw.initState ⟨0, 0, 0⟩ ⟨0, 0, -1⟩).rayDirection).reflectionFactor =
      (0.6 : ℝ) ^ (Raw.initState (Raw.initState ⟨0, 0, 0⟩ ⟨0, 0, -1⟩).rayOrigin
        (Raw.initState ⟨0, 0, 0⟩ ⟨0, 0, -1⟩).rayDirection).depth) :=
  ⟨by norm_num [Raw.initState], Raw.closest_concrete Raw.Color.undef,
    reflectionFactor_invariant [((⟨0, 0, -1⟩ : Vector), Raw.Color.undef)] [] ⟨5, 100⟩
      (Raw.initState ⟨0, 0, 0⟩ ⟨0, 0, -1⟩)
      (((⟨0, 0, -1⟩ : Vector), Raw.Color.undef), (⟨0, 0, -(1 / 2)⟩ : Vector))
      (by norm_num [Raw.initState]) (Raw.closest_concrete Raw.Color.undef)⟩

theorem Raw.writePixels_cons (c : Raw.Color) (cs : List Raw.Color) (buf : List ℕ) :
    Raw.writePixels (c :: cs) buf =
      (if c.isDefined then [c.blueByte, c.greenByte, c.redByte] else buf.take 3) ++
        Raw.writePixels cs (buf.drop 3) := rfl

theorem Raw.writePixels_getElem (colors : List Raw.Color) (buf : List ℕ)
    (hlen : buf.length = 3 * colors.length) (k : ℕ) (c : Raw.Color)
    (hc : colors[k]? = some c) :
    ((Raw.writePixels colors buf)[3 * k]? =
      if c.isDefined then some c.blueByte else buf[3 * k]?) ∧
    ((Raw.writePixels colors buf)[3 * k + 1]? =
      if c.isDefined then some c.greenByte else buf[3 * k + 1]?) ∧
    ((Raw.writePixels colors buf)[3 * k + 2]? =
      if c.isDefined then some c.redByte else buf[3 * k + 2]?) := by
  induction colors generalizing buf k with
  | nil => simp at hc
  | cons c0 cs ih =>
    have hbuf3 : 3 ≤ buf.length := by rw [hlen, List.length_cons]; omega
    have hpre : (if c0.isDefined then [c0.blueByte, c0.greenByte, c0.redByte]
        else buf.take 3).length = 3 := by
      by_cases hd : c0.isDefined
      · rw [if_pos hd]; rfl
      · rw [if_neg hd, List.length_take]; omega
    cases k with
    | zero =>
      have hc0 : c0 = c := by simpa using hc
      subst hc0
      rw [Raw.writePixels_cons]
      refine ⟨?_, ?_, ?_⟩
      · rw [show 3 * 0 = 0 from rfl, List.getElem?_append_left (by omega)]
        by_cases hd : c0.isDefined
        · rw [if_pos hd, if_pos hd]; rfl
        · rw [if_neg hd, if_neg hd, List.getElem?_take, if_pos (by omega)]
      · rw [show 3 * 0 + 1 = 1 from rfl, List.getElem?_append_left (by omega)]
        by_cases hd : c0.isDefined
        · rw [if_pos hd, if_pos hd]; rfl
        · rw [if_neg hd, if_neg hd, List.getElem?_take, if_pos (by omega)]
      · rw [show 3 * 0 + 2 = 2 from rfl, List.getElem?_append_left (by omega)]
        by_cases hd : c0.isDefined
        · rw [if_pos hd, if_pos hd]; rfl
        · rw [if_neg hd, if_neg hd, List.getElem?_take, if_pos (by omega)]
    | succ k =>
      have hck : cs[k]? = some c := by simpa using hc
      have hlen' : (buf.drop 3).length = 3 * cs.length := by
        rw [List.length_drop, hlen, List.length_cons]; omega
      obtain ⟨ih1, ih2, ih3⟩ := ih (buf.drop 3) hlen' k hck
      have hidx : ∀ r : ℕ,
          (Raw.writePixels (c0 :: cs) buf)[3 * (k + 1) + r]? =
            (Raw.writePixels cs (buf.drop 3))[3 * k + r]? := by
        intro r
        rw [Raw.writePixels_cons]
        rw [List.getElem?_append_right (by rw [hpre]; omega), hpre,
          show 3 * (k + 1) + r - 3 = 3 * k + r from by omega]
      have hbufidx : ∀ r : ℕ, buf[3 * (k + 1) + r]? = (buf.drop 3)[3 * k + r]? := by
        intro r
        rw [List.getElem?_drop]
        congr 1
        omega
      refine ⟨?_, ?_, ?_⟩
      · have h0 := hidx 0
        have hb := hbufidx 0
        simp only [Nat.add_zero] at h0 hb
        rw [h0, hb]
        exact ih1
      · rw [hidx 1, hbufidx 1]; exact ih2
      · rw [hidx 2, hbufidx 2]; exact ih3

/-- Claim C7: a pixel whose traced color is undefined keeps its three
pre-filled background bytes in the framebuffer, while a pixel with a
defined color gets its blue, green and red bytes written in that order. -/
theorem renderImage_pixel_bytes (spheres : List Raw.Sphere) (lights : List Vector)
    (sphereMaterial : Raw.Material) (resolution : ℕ) (pixels : List ℕ) (k : ℕ)
    (c : Raw.Color)
    (hlen : pixels.length =
      3 * (Raw.pixelColors spheres lights sphereMaterial resolution).length)
    (hc : (Raw.pixelColors spheres lights sphereMaterial resolution)[k]? = some c) :
    ((Raw.renderImage spheres lights sphereMaterial resolution pixels)[3 * k]? =
      if c.isDefined then some c.blueByte else pixels[3 * k]?) ∧
    ((Raw.renderImage spheres lights sphereMaterial resolution pixels)[3 * k + 1]? =
      if c.isDefined then some c.greenByte else pixels[3 * k + 1]?) ∧
    ((Raw.renderImage spheres lights sphereMaterial resolution pixels)[3 * k + 2]? =
      if c.isDefined then some c.redByte else pixels[3 * k + 2]?) :=
  Raw.writePixels_getElem (Raw.pixelColors spheres lights sphereMaterial resolution)
    pixels hlen k c hc

/-- Witness instantiating C7's theorem at resolution 1 over an empty scene
(the single pixel's trace misses, so the background bytes survive). -/
theorem renderImage_pixel_bytes_witness :
    ([7, 8, 9] : List ℕ).length = 3 * (Raw.pixelColors [] [] ⟨5, 100⟩ 1).length ∧
    (Raw.pixelColors [] [] ⟨5, 100⟩ 1)[0]? = some Raw.Color.undef ∧
    (((Raw.renderImage [] [] ⟨5, 100⟩ 1 [7, 8, 9])[3 * 0]? =
      if Raw.Color.undef.isDefined then some Raw.Color.undef.blueByte
      else ([7, 8, 9] : List ℕ)[3 * 0]?) ∧
    ((Raw.renderImage [] [] ⟨5, 100⟩ 1 [7, 8, 9])[3 * 0 + 1]? =
      if Raw.Color.undef.isDefined then some Raw.Color.undef.greenByte
      else ([7, 8, 9] : List ℕ)[3 * 0 + 1]?) ∧
    ((Raw.renderImage [] [] ⟨5, 100⟩ 1 [7, 8, 9])[3 * 0 + 2]? =
      if Raw.Color.undef.isDefined then some Raw.Color.undef.redByte
      else ([7, 8, 9] : List ℕ)[3 * 0 + 2]?)) :=
  ⟨rfl, rfl, renderImage_pixel_bytes [] [] ⟨5, 100⟩ 1 [7, 8, 9] 0 Raw.Color.undef rfl rfl⟩

/-- Counterexample to claim C8 as stated: adding the defined color
`(1,0,0)` to the default-constructed undefined color yields a color whose
`defined` flag is `true`, not `false` — `operator+` builds its result
with the three-argument constructor, which always sets the flag. -/
theorem color_add_undef_counterexample :
    ¬ (Raw.Color.undef + Raw.Color.rgb 1 0 0).isDefined = false := by
  rw [show (Raw.Color.undef + Raw.Color.rgb 1 0 0).isDefined = true from rfl]
  simp

/-- Claim C8 (amended): in both variants, adding a color `c` to the
undefined default-constructed color behaves as adding to `(0,0,0)` in the
channel components, but the result's `defined` flag is always `true`
rather than remaining `false`, because `operator+` goes through the
three-argument constructor. -/
theorem color_add_undef_spec (c : Raw.Color) (c' : Simple.Color) :
    Raw.Color.undef + c = Raw.Color.rgb (0 + c.red) (0 + c.green) (0 + c.blue) ∧
    (Raw.Color.undef + c).isDefined = true ∧
    Simple.Color.undef + c' =
      Simple.Color.rgb (0 + c'.red) (0 + c'.green) (0 + c'.blue) ∧
    (Simple.Color.undef + c').isDefined = true :=
  ⟨rfl, rfl, rfl, rfl⟩

theorem Vector.dot_self_nonneg (v : Vector) : 0 ≤ v.dot v := by
  simp only [Vector.dot]
  have hx := mul_self_nonneg v.x
  have hy := mul_self_nonneg v.y
  have hz := mul_self_nonneg v.z
  linarith

theorem Vector.sub_eq_zero_iff (u v : Vector) : u - v = (⟨0, 0, 0⟩ : Vector) ↔ u = v := by
  cases u; cases v
  simp only [Vector.sub_mk, Vector.mk.injEq, sub_eq_zero]

theorem Vector.dot_self_pos (v : Vector) (h : v ≠ (⟨0, 0, 0⟩ : Vector)) : 0 < v.dot v := by
  rcases lt_or_eq_of_le (Vector.dot_self_nonneg v) with hlt | heq
  · exact hlt
  · exfalso
    apply h
    cases v with
    | mk x y z =>
      simp only [Vector.dot] at heq
      have hx : x = 0 := by nlinarith [sq_nonneg x, sq_nonneg y, sq_nonneg z]
      have hy : y = 0 := by nlinarith [sq_nonneg x, sq_nonneg y, sq_nonneg z]
      have hz : z = 0 := by nlinarith [sq_nonneg x, sq_nonneg y, sq_nonneg z]
      simp [hx, hy, hz]

theorem Vector.dot_sq_le (u v : Vector) :
    (u.dot v) * (u.dot v) ≤ (u.dot u) * (v.dot v) := by
  simp only [Vector.dot]
  nlinarith [sq_nonneg (u.x * v.y - u.y * v.x), sq_nonneg (u.x * v.z - u.z * v.x),
    sq_nonneg (u.y * v.z - u.z * v.y)]

theorem Vector.length_eq_sqrt_dot (v : Vector) : v.length = Real.sqrt (v.dot v) := rfl

theorem Vector.length_pos (v : Vector) (h : v ≠ (⟨0, 0, 0⟩ : Vector)) : 0 < v.length := by
  rw [Vector.length_eq_sqrt_dot]
  exact Real.sqrt_pos.mpr (Vector.dot_self_pos v h)

theorem Vector.dot_smul_smul (u v : Vector) (a b : ℝ) :
    (u * a).dot (v * b) = (a * b) * (u.dot v) := by
  cases u; cases v
  simp only [Vector.smul_mk, Vector.dot_mk]
  ring

theorem Vector.dot_le_length_mul (u v : Vector) : u.dot v ≤ u.length * v.length := by
  rw [Vector.length_eq_sqrt_dot, Vector.length_eq_sqrt_dot, ← Real.sqrt_mul
    (Vector.dot_self_nonneg u)]
  calc u.dot v ≤ |u.dot v| := le_abs_self _
    _ = Real.sqrt ((u.dot v) * (u.dot v)) := by
        rw [← Real.sqrt_mul_self (abs_nonneg (u.dot v)), abs_mul_abs_self]
    _ ≤ Real.sqrt ((u.dot u) * (v.dot v)) := Real.sqrt_le_sqrt (Vector.dot_sq_le u v)

theorem Vector.normalized_dot_le_one (u v : Vector) (hu : u ≠ (⟨0, 0, 0⟩ : Vector))
    (hv : v ≠ (⟨0, 0, 0⟩ : Vector)) : (u.normalized).dot (v.normalized) ≤ 1 := by
  unfold Vector.normalized
  rw [Vector.dot_smul_smul]
  have hlu := Vector.length_pos u hu
  have hlv := Vector.length_pos v hv
  have hdot := Vector.dot_le_length_mul u v
  have hprod : 0 < u.length * v.length := mul_pos hlu hlv
  have heq : (1 / u.length) * (1 / v.length) * (u.dot v) =
      (u.dot v) / (u.length * v.length) := by
    field_simp
  rw [heq, div_le_one hprod]
  exact hdot

theorem Vector.neg_smul_dot (v : Vector) : (v * (-1 : ℝ)).dot v = -(v.dot v) := by
  cases v
  simp only [Vector.smul_mk, Vector.dot_mk]
  ring

/-- Claim C9: for a surface point distinct from the center and a light
distinct from the point, `calculateLambert` equals
`max(0, normalize(light - point) · normalize(point - center))`, lies in
`[0, 1]`, and equals `0` whenever the light direction is exactly opposite
the surface normal. -/
theorem calculateLambert_spec (sphereCenter intersection lightPosition : Vector)
    (hpc : intersection ≠ sphereCenter) (hlp : lightPosition ≠ intersection) :
    Raw.calculateLambert sphereCenter intersection lightPosition =
      max 0 (((lightPosition - intersection).normalized).dot
        ((intersection - sphereCenter).normalized)) ∧
    0 ≤ Raw.calculateLambert sphereCenter intersection lightPosition ∧
    Raw.calculateLambert sphereCenter intersection lightPosition ≤ 1 ∧
    ((lightPosition - intersection).normalized =
        ((intersection - sphereCenter).normalized) * (-1 : ℝ) →
      Raw.calculateLambert sphereCenter intersection lightPosition = 0) := by
  have hu : lightPosition - intersection ≠ (⟨0, 0, 0⟩ : Vector) := fun h0 =>
    hlp ((Vector.sub_eq_zero_iff _ _).mp h0)
  have hv : intersection - sphereCenter ≠ (⟨0, 0, 0⟩ : Vector) := fun h0 =>
    hpc ((Vector.sub_eq_zero_iff _ _).mp h0)
  refine ⟨rfl, le_max_left 0 _, ?_, ?_⟩
  · simp only [Raw.calculateLambert]
    exact max_le (by norm_num) (Vector.normalized_dot_le_one _ _ hu hv)
  · intro h
    simp only [Raw.calculateLambert]
    rw [h, Vector.neg_smul_dot]
    exact max_eq_left (neg_nonpos.mpr (Vector.dot_self_nonneg _))

/-- Witness instantiating C9's theorem at a concrete sphere center,
surface point and light position. -/
theorem calculateLambert_spec_witness :
    ((⟨0, 0, 1⟩ : Vector) ≠ (⟨0, 0, 0⟩ : Vector)) ∧
    ((⟨0, 0, 2⟩ : Vector) ≠ (⟨0, 0, 1⟩ : Vector)) ∧
    (Raw.calculateLambert ⟨0, 0, 0⟩ ⟨0, 0, 1⟩ ⟨0, 0, 2⟩ =
      max 0 ((((⟨0, 0, 2⟩ : Vector) - (⟨0, 0, 1⟩ : Vector)).normalized).dot
        (((⟨0, 0, 1⟩ : Vector) - (⟨0, 0, 0⟩ : Vector)).normalized)) ∧
    0 ≤ Raw.calculateLambert ⟨0, 0, 0⟩ ⟨0, 0, 1⟩ ⟨0, 0, 2⟩ ∧
    Raw.calculateLambert ⟨0, 0, 0⟩ ⟨0, 0, 1⟩ ⟨0, 0, 2⟩ ≤ 1 ∧
    (((⟨0, 0, 2⟩ : Vector) - (⟨0, 0, 1⟩ : Vector)).normalized =
        ((((⟨0, 0, 1⟩ : Vector) - (⟨0, 0, 0⟩ : Vector)).normalized) * (-1 : ℝ)) →
      Raw.calculateLambert ⟨0, 0, 0⟩ ⟨0, 0, 1⟩ ⟨0, 0, 2⟩ = 0)) :=
  ⟨by simp [Vector.mk.injEq], by simp [Vector.mk.injEq],
    calculateLambert_spec ⟨0, 0, 0⟩ ⟨0, 0, 1⟩ ⟨0, 0, 2⟩
      (by simp [Vector.mk.injEq]) (by simp [Vector.mk.injEq])⟩

theorem Simple.calcInt_concrete :
    Simple.calculateSphereIntersection ⟨0, 0, -1⟩ ⟨0, 0, 0⟩ ⟨0, 0, -1⟩ =
      some ⟨0, 0, -(1 / 2)⟩ := by
  simp only [Simple.calculateSphereIntersection, Vector.sub_mk, Vector.dot_mk]
  norm_num
  rw [show (4 : ℝ) = 2 ^ 2 by norm_num, Real.sqrt_sq (by norm_num : (0 : ℝ) ≤ 2)]
  norm_num [Simple.spherePoint]

/-- Claim C10: in the simpler variant the per-pixel loop does no
nearest-hit selection: an unshadowed hit by the last sphere of the scene
list assigns that sphere's lit color, overwriting whatever was
accumulated before regardless of intersection distance; a shadowed hit
merely adds black, which leaves any previously assigned (defined) color
unchanged; a miss leaves the accumulator alone. -/
theorem renderPixel_last_sphere_wins (scene l : List Simple.Sphere)
    (s : Simple.Sphere) (rayOrigin rayDirection pt : Vector)
    (hscene : scene = l ++ [s])
    (hint : Simple.calculateSphereIntersection s.1 rayOrigin rayDirection = some pt) :
    (Simple.isShadowed pt scene = false →
      Simple.renderPixel scene rayOrigin rayDirection =
        s.2 * Simple.calculateLambert s.1 pt) ∧
    (Simple.isShadowed pt scene = true →
      Simple.renderPixel scene rayOrigin rayDirection =
        l.foldl (Simple.pixelStep scene rayOrigin rayDirection) Simple.Color.undef +
          Simple.Color.rgb 0 0 0) ∧
    (∀ c : Simple.Color, c.isDefined = true → c + Simple.Color.rgb 0 0 0 = c) ∧
    (∀ (c : Simple.Color) (s₂ : Simple.Sphere),
      Simple.calculateSphereIntersection s₂.1 rayOrigin rayDirection = none →
      Simple.pixelStep scene rayOrigin rayDirection c s₂ = c) := by
  subst hscene
  have hfold : Simple.renderPixel (l ++ [s]) rayOrigin rayDirection =
      Simple.pixelStep (l ++ [s]) rayOrigin rayDirection
        (l.foldl (Simple.pixelStep (l ++ [s]) rayOrigin rayDirection) Simple.Color.undef)
        s := by
    unfold Simple.renderPixel
    rw [List.foldl_append]
    rfl
  refine ⟨?_, ?_, ?_, ?_⟩
  · intro hsh
    rw [hfold]
    simp only [Simple.pixelStep, hint, hsh]
    simp
  · intro hsh
    rw [hfold]
    simp only [Simple.pixelStep, hint, hsh]
    simp
  · intro c hdef
    cases c with
    | mk d r g b =>
      simp only [Simple.Color.isDefined] at hdef
      subst hdef
      show Simple.Color.add ⟨true, r, g, b⟩ (Simple.Color.rgb 0 0 0) = ⟨true, r, g, b⟩
      simp [Simple.Color.add, Simple.Color.rgb]
  · intro c s₂ hnone
    simp only [Simple.pixelStep, hnone]

/-- Witness instantiating C10's theorem on a concrete one-sphere scene
whose single (last) sphere the ray hits. -/
theorem renderPixel_last_sphere_wins_witness :
    ([((⟨0, 0, -1⟩ : Vector), Simple.Color.rgb 1 0 0)] =
      [] ++ [((⟨0, 0, -1⟩ : Vector), Simple.Color.rgb 1 0 0)]) ∧
    (Simple.calculateSphereIntersection
      ((⟨0, 0, -1⟩ : Vector), Simple.Color.rgb 1 0 0).1 ⟨0, 0, 0⟩ ⟨0, 0, -1⟩ =
      some ⟨0, 0, -(1 / 2)⟩) ∧
    ((Simple.isShadowed ⟨0, 0, -(1 / 2)⟩
        [((⟨0, 0, -1⟩ : Vector), Simple.Color.rgb 1 0 0)] = false →
      Simple.renderPixel [((⟨0, 0, -1⟩ : Vector), Simple.Color.rgb 1 0 0)]
          ⟨0, 0, 0⟩ ⟨0, 0, -1⟩ =
        ((⟨0, 0, -1⟩ : Vector), Simple.Color.rgb 1 0 0).2 *
          Simple.calculateLambert ((⟨0, 0, -1⟩ : Vector), Simple.Color.rgb 1 0 0).1
            ⟨0, 0, -(1 / 2)⟩) ∧
    (Simple.isShadowed ⟨0, 0, -(1 / 2)⟩
        [((⟨0, 0, -1⟩ : Vector), Simple.Color.rgb 1 0 0)] = true →
      Simple.renderPixel [((⟨0, 0, -1⟩ : Vector), Simple.Color.rgb 1 0 0)]
          ⟨0, 0, 0⟩ ⟨0, 0, -1⟩ =
        List.foldl (Simple.pixelStep [((⟨0, 0, -1⟩ : Vector), Simple.Color.rgb 1 0 0)]
          ⟨0, 0, 0⟩ ⟨0, 0, -1⟩) Simple.Color.undef [] +
          Simple.Color.rgb 0 0 0) ∧
    (∀ c : Simple.Color, c.isDefined = true → c + Simple.Color.rgb 0 0 0 = c) ∧
    (∀ (c : Simple.Color) (s₂ : Simple.Sphere),
      Simple.calculateSphereIntersection s₂.1 ⟨0, 0, 0⟩ ⟨0, 0, -1⟩ = none →
      Simple.pixelStep [((⟨0, 0, -1⟩ : Vector), Simple.Color.rgb 1 0 0)]
        ⟨0, 0, 0⟩ ⟨0, 0, -1⟩ c s₂ = c)) :=
  ⟨rfl, Simple.calcInt_concrete,
    renderPixel_last_sphere_wins [((⟨0, 0, -1⟩ : Vector), Simple.Color.rgb 1 0 0)] []
      ((⟨0, 0, -1⟩ : Vector), Simple.Color.rgb 1 0 0) ⟨0, 0, 0⟩ ⟨0, 0, -1⟩
      ⟨0, 0, -(1 / 2)⟩ rfl Simple.calcInt_concrete⟩

end MyTracer
